import Mathlib

/-! # Response adapter of `createOutgoingMessage.js`

A shallow embedding of `src/createOutgoingMessage.js`: the `OutgoingMessage` mock with its
`setHeader`, `writeHead` and `end` operations, the host context they write to, and the
properties of the adapter's contract.

Script values are embedded as follows.

* A plain object is a list of key/value pairs (`JSObject`), own enumerable data properties in
  creation order; `JSObject.keys` gives the enumeration order of `Object.keys`.  A write of a
  text under the key `__proto__` reaches the legacy accessor of `Object.prototype` and stores
  nothing (`JSObject.set`).  A read of a key that is not an own property gives `undefined`;
  run from a fresh adapter, the operations read own properties only.
* A value in status-code position is `undefined` or an integer-valued number (`StatusCode`);
  `x | 0` on an integer-valued number is its residue modulo `2^32` read as a signed 32-bit
  integer (`toInt32`).
* A `throw` is recorded in the `Outcome` together with the state reached at the throw, so that
  what a failed call leaves behind can be stated.
* What the file uses without defining it is a parameter (`Runtime`): the table of
  `./statusCodes`, `String.prototype.toLowerCase`, and `Buffer.prototype.toString`, which
  either returns the text or throws.  The header rendering `_renderHeaders`, which the
  middleware framework supplies, is modelled from the specification.
-/

set_option autoImplicit false

namespace AzureFunctionExpress

/-! ## Plain objects -/

/-- A plain object: its own enumerable properties, in creation order. -/
abbrev JSObject (α : Type) := List (String × α)

namespace JSObject

variable {α : Type}

/-- Property read `o[k]`; `none` stands for `undefined`. -/
def get (o : JSObject α) (k : String) : Option α :=
  match o with
  | [] => none
  | (k', v) :: rest => if k' = k then some v else get rest k

/-- Writes the own property `k`: an existing property keeps its place, a new one is created
last. -/
def define (o : JSObject α) (k : String) (v : α) : JSObject α :=
  match o with
  | [] => [(k, v)]
  | (k', v') :: rest => if k' = k then (k', v) :: rest else (k', v') :: define rest k v

/-- Property write `o[k] = v` on an object made by an object literal, `v` not being an object.
For the key `__proto__`, unless the object has it as an own property, the write reaches the
setter that `Object.prototype` has for that key, which ignores a value that is not an object:
nothing is stored. Every other write creates or updates an own property. -/
def set (o : JSObject α) (k : String) (v : α) : JSObject α :=
  if k = "__proto__" ∧ (get o k).isNone then o else define o k v

/-- Value of a list of decimal digits. -/
def digitsValue (cs : List Char) : Nat :=
  cs.foldl (fun acc c => 10 * acc + (c.toNat - 48)) 0

/-- The array index a property key denotes, if it is the canonical decimal form of an integer
below `2^32 - 1`. -/
def arrayIndex? (k : String) : Option Nat :=
  match k.data with
  | [] => none
  | c :: cs =>
    if (c :: cs).all Char.isDigit && (c != '0' || cs.isEmpty) then
      (if digitsValue (c :: cs) < 4294967295 then some (digitsValue (c :: cs)) else none)
    else none

/-- Numeric value of an array-index key (`0` for any other key). -/
def indexValue (k : String) : Nat := (arrayIndex? k).getD 0

/-- The order of `Object.keys(o)`: array-index keys in ascending numeric order, then the other
keys in creation order. -/
def keys (o : JSObject α) : List String :=
  ((o.map Prod.fst).filter (fun k => (arrayIndex? k).isSome)).insertionSort
      (fun a b => indexValue a ≤ indexValue b)
    ++ (o.map Prod.fst).filter (fun k => !(arrayIndex? k).isSome)

/-- The pairs `(k, o[k])` for `k` running through `Object.keys(o)`. -/
def entries (o : JSObject α) : List (String × α) :=
  (keys o).filterMap (fun k => (get o k).map (fun v => (k, v)))

/-- A run of property writes `o[key x] = value x`, for `x` running through a list. -/
def setEach {β : Type} (key : β → String) (value : β → α) (o : JSObject α) (l : List β) :
    JSObject α :=
  l.foldl (fun acc x => set acc (key x) (value x)) o

end JSObject

/-! ## Status codes -/

/-- The operator `n | 0` on an integer-valued number: `ToInt32`. -/
def toInt32 (n : Int) : Int :=
  if n % 4294967296 ≥ 2147483648 then n % 4294967296 - 4294967296 else n % 4294967296

/-- A value in status-code position: `undefined` (a field never assigned, an argument not
passed) or an integer-valued number. -/
inductive StatusCode where
  | undefined
  | number (n : Int)
  deriving DecidableEq, Repr

/-- The coercion `statusCode |= 0`. -/
def StatusCode.orZero : StatusCode → Int
  | .undefined => 0
  | .number n => toInt32 n

/-! ## State -/

/-- Body data handed to `end`: absent, text, or a `Buffer` of bytes. -/
inductive Data where
  | undefined
  | text (s : String)
  | buffer (bytes : List Nat)
  deriving DecidableEq, Repr

/-- The host's result descriptor `context.res`; `none` is a field holding `undefined`. -/
structure Res where
  status : Option Int
  headers : Option (JSObject String)
  body : Data
  isRaw : Bool
  deriving DecidableEq, Repr

/-- The host context of one invocation: the descriptor and the number of times the completion
signal `context.done()` has been invoked. -/
structure Context where
  res : Res
  doneCalls : Nat
  deriving DecidableEq, Repr

/-- The fields of the `OutgoingMessage` mock. -/
structure OutgoingMessage where
  _headers : Option (JSObject String)
  _headerNames : JSObject String
  _removedHeader : JSObject Bool
  _hasBody : Bool
  statusCode : StatusCode
  statusMessage : Option String
  deriving DecidableEq, Repr

/-- The adapter together with the host context it was created for. -/
structure World where
  message : OutgoingMessage
  context : Context
  deriving DecidableEq, Repr

/-- An exception value. -/
inductive JSError where
  | RangeError (message : String)
  | TypeError (message : String)
  | Error (message : String)
  deriving DecidableEq, Repr

/-- What `Buffer.prototype.toString` throws: a `TypeError` for an encoding it does not know,
an `Error` when it cannot build the text. -/
inductive ToStringError where
  | TypeError (message : String)
  | Error (message : String)
  deriving DecidableEq, Repr

/-- The exception value of a failed `toString`. -/
def ToStringError.toJSError : ToStringError → JSError
  | .TypeError message => .TypeError message
  | .Error message => .Error message

/-- Result of a call: the state it leaves and the exception it threw, if any. -/
structure Outcome where
  world : World
  thrown : Option JSError
  deriving DecidableEq, Repr

/-- What the file imports or calls without defining it. -/
structure Runtime where
  /-- Modelled from the spec: the static status-code-to-phrase table of `./statusCodes`, which
  is not among the sources, read as `statusCodes[statusCode]`; `none` is a code without an
  entry. -/
  statusCodes : Int → Option String
  /-- Modelled from the spec: an entry of the table is a reason phrase, a text that is not
  empty. -/
  statusCodes_ne : ∀ code, statusCodes code ≠ some ""
  /-- The built-in `name.toLowerCase()`. -/
  toLowerCase : String → String
  /-- The text `__proto__` has no upper-case letter: lower-casing leaves it as it is. -/
  toLowerCase_proto : toLowerCase "__proto__" = "__proto__"
  /-- The built-in `body.toString(encoding)` of a `Buffer`; `none` is an encoding not passed.
  It returns the decoded text or throws. -/
  bufferToString : List Nat → Option String → Except ToStringError String

/-! ## Operations -/

/-- Embeds `convertToBody(body, encoding)`: the value returned, or the exception that
`body.toString(encoding)` throws. -/
def convertToBody (rt : Runtime) (body : Data) (encoding : Option String) :
    Except JSError Data :=
  match body with
  | .buffer bytes =>
    match rt.bufferToString bytes encoding with
    | .ok text => .ok (.text text)
    | .error e => .error e.toJSError
  | other => .ok other

/-- Embeds `OutgoingMessage.prototype.setHeader(name, value)`. -/
def OutgoingMessage.setHeader (rt : Runtime) (self : OutgoingMessage) (name value : String) :
    OutgoingMessage :=
  let headers : JSObject String := match self._headers with
    | none => []
    | some hs => hs
  let key := rt.toLowerCase name
  { self with
    _headers := some (JSObject.set headers key value)
    _headerNames := JSObject.set self._headerNames key name }

/-- Modelled from the spec: the header rendering `this._renderHeaders()` that `writeHead` calls
is not defined in this file (the middleware framework supplies it). It renders the accumulated
headers, applying the original casing from the name map: for every stored lower-cased key, in
key order, the value is written under the original-case name recorded for that key. -/
def OutgoingMessage._renderHeaders (self : OutgoingMessage) : JSObject String :=
  match self._headers with
  | none => []
  | some hs =>
    (JSObject.entries hs).foldl
      (fun acc kv =>
        JSObject.set acc ((JSObject.get self._headerNames kv.1).getD "undefined") kv.2) []

/-- The operand of `||` when it is truthy: a string that is defined and not empty. -/
def truthy? : Option String → Option String
  | some s => if s = "" then none else some s
  | none => none

/-- The loop of `writeHead` over `Object.keys(headers)`: `setHeader(k, headers[k])` for every
key `k` that is not empty. -/
def mergeHeaders (rt : Runtime) (self : OutgoingMessage) (headers : JSObject String) :
    OutgoingMessage :=
  (JSObject.entries headers).foldl
    (fun m kv => if kv.1 ≠ "" then m.setHeader rt kv.1 kv.2 else m) self

/-- The expression `statusMessage || statusCodes[statusCode] || "unknown"`. -/
def reasonPhrase (rt : Runtime) (code : Int) (statusMessage : Option String) : String :=
  ((truthy? statusMessage).orElse (fun _ => truthy? (rt.statusCodes code))).getD "unknown"

/-- Step 3 of `writeHead`, the block guarded by `if (this._headers)`: the adapter after the
merge and the value the variable `headers` holds after the block. -/
def headersStep (rt : Runtime) (self : OutgoingMessage) (headers : Option (JSObject String)) :
    OutgoingMessage × Option (JSObject String) :=
  match self._headers with
  | some _ =>
    -- Slow-case: when progressive API and header fields are passed.
    let merged : OutgoingMessage :=
      match headers with
      | some hs => mergeHeaders rt self hs
      | none => self
    -- only progressive api is used
    (merged, some merged._renderHeaders)
  | none => (self, headers)

/-- Embeds `writeHead(context, statusCode, statusMessage, headers)`, bound to the adapter and
its context. -/
def writeHead (rt : Runtime) (w : World) (statusCode : StatusCode)
    (statusMessage : Option String) (headers : Option (JSObject String)) : Outcome :=
  -- 1. Status code
  let code := statusCode.orZero
  if code < 100 ∨ code > 999 then
    { world := w, thrown := some (.RangeError ("Invalid status code: " ++ toString code)) }
  else
    -- 2. Status message
    let m1 : OutgoingMessage :=
      { w.message with statusMessage := some (reasonPhrase rt code statusMessage) }
    -- 3. Headers
    let step := headersStep rt m1 headers
    -- 4. Sets everything
    { world :=
        { message := step.1
          context := { w.context with
            res := { w.context.res with status := some code, headers := step.2 } } }
      thrown := none }

/-- Embeds `end(context, data, encoding)`, bound to the adapter and its context. -/
def end_ (rt : Runtime) (w : World) (data : Data) (encoding : Option String) : Outcome :=
  -- 1. Write head
  let r := writeHead rt w w.message.statusCode none none
  match r.thrown with
  | some e => { world := r.world, thrown := some e }
  | none =>
    -- 2. Return raw body to the host
    let ctx := r.world.context
    match convertToBody rt data encoding with
    | .error e => { world := r.world, thrown := some e }
    | .ok body =>
      { world :=
          { r.world with
            context :=
              { res := { ctx.res with body := body, isRaw := true }
                doneCalls := ctx.doneCalls + 1 } }
        thrown := none }

/-- Embeds `createOutgoingMessage(context)`: the constructor's field values, bound to
`context`. The constructor assigns no `statusCode`. -/
def createOutgoingMessage (context : Context) : World :=
  { message :=
      { _headers := none
        _headerNames := []
        _removedHeader := []
        _hasBody := true
        statusCode := .undefined
        statusMessage := none }
    context := context }

/-! ## Call sequences -/

/-- The arguments of one `writeHead` call. -/
structure WriteHeadCall where
  statusCode : StatusCode
  statusMessage : Option String
  headers : Option (JSObject String)
  deriving DecidableEq, Repr

/-- The state after a sequence of `writeHead` calls, made one after the other. -/
def writeHeadEach (rt : Runtime) (w : World) (calls : List WriteHeadCall) : World :=
  calls.foldl (fun w c => (writeHead rt w c.statusCode c.statusMessage c.headers).world) w

/-- The adapter after a sequence of `setHeader(name, value)` calls, made one after the
other. -/
def setHeaderEach (rt : Runtime) (self : OutgoingMessage) (calls : List (String × String)) :
    OutgoingMessage :=
  calls.foldl (fun m c => m.setHeader rt c.1 c.2) self

/-- The `setHeader` calls a headers object stands for, in the words of the specification:
`setHeader(k, headers[k])` for each non-empty key `k` of `headers`, in key order. -/
def headerCalls (headers : JSObject String) : List (String × String) :=
  (JSObject.entries headers).filter (fun kv => kv.1 ≠ "")

/-- The header storage is consistent when every stored header has a recorded name and this
name lower-cases to the key the header is stored under. It is so on a fresh adapter, and
`setHeader`, `writeHead` and `end` keep it so. -/
def HeadersConsistent (rt : Runtime) (self : OutgoingMessage) : Prop :=
  ∀ kv ∈ self._headers.getD [],
    (JSObject.get self._headerNames kv.1).map rt.toLowerCase = some kv.1

instance (rt : Runtime) (self : OutgoingMessage) : Decidable (HeadersConsistent rt self) := by
  unfold HeadersConsistent
  infer_instance

/-! ## Concrete runtime and inputs for the examples -/

/-- Lower-casing of the letters `A`-`Z`, character by character. -/
def asciiLower (s : String) : String := String.mk (s.data.map Char.toLower)

/-- Modelled from the spec: the table of `./statusCodes` is not among the sources; the two
entries used in the examples, with `599` unmapped. -/
def exampleStatusCodes (code : Int) : Option String :=
  if code = 200 then some "OK" else if code = 404 then some "Not Found" else none

/-- A decoder for the examples: it knows the encodings `utf8`, `ascii` and `latin1`, takes
`utf8` when none is passed, decodes one character per byte, and throws the `TypeError` of an
unknown encoding for any other name. -/
def exampleToString (bytes : List Nat) (encoding : Option String) :
    Except ToStringError String :=
  match encoding with
  | none => .ok (String.mk (bytes.map Char.ofNat))
  | some name =>
    if name = "utf8" ∨ name = "ascii" ∨ name = "latin1" then
      .ok (String.mk (bytes.map Char.ofNat))
    else .error (.TypeError ("Unknown encoding: " ++ name))

/-- A runtime for the examples. -/
def exampleRuntime : Runtime :=
  { statusCodes := exampleStatusCodes
    statusCodes_ne := by
      intro code
      unfold exampleStatusCodes
      split
      · decide
      · split <;> decide
    toLowerCase := asciiLower
    toLowerCase_proto := by decide
    bufferToString := exampleToString }

/-- A host context before any write. -/
def emptyContext : Context :=
  { res := { status := none, headers := none, body := .undefined, isRaw := false }
    doneCalls := 0 }

/-- A fresh adapter to which the framework has assigned `statusCode`. -/
def adapterWithStatus (code : Int) : World :=
  { message := { (createOutgoingMessage emptyContext).message with statusCode := .number code }
    context := emptyContext }

/-- An adapter in progressive use: status code `200` assigned and `setHeader("X-A", "1")`
called. -/
def progressiveAdapter : World :=
  { message := (adapterWithStatus 200).message.setHeader exampleRuntime "X-A" "1"
    context := emptyContext }

/-! ## Auxiliary lemmas -/

theorem toInt32_of_int32 (n : Int) (hlo : -2147483648 ≤ n) (hhi : n ≤ 2147483647) :
    toInt32 n = n := by
  unfold toInt32
  split <;> omega

theorem writeHead_of_invalid (rt : Runtime) (w : World) (statusCode : StatusCode)
    (statusMessage : Option String) (headers : Option (JSObject String))
    (h : statusCode.orZero < 100 ∨ statusCode.orZero > 999) :
    writeHead rt w statusCode statusMessage headers =
      { world := w
        thrown := some (.RangeError ("Invalid status code: " ++ toString statusCode.orZero)) } := by
  simp only [writeHead, if_pos h]

theorem writeHead_of_valid (rt : Runtime) (w : World) (statusCode : StatusCode)
    (statusMessage : Option String) (headers : Option (JSObject String))
    (hlo : 100 ≤ statusCode.orZero) (hhi : statusCode.orZero ≤ 999) :
    writeHead rt w statusCode statusMessage headers =
      { world :=
          { message :=
              (headersStep rt { w.message with
                statusMessage := some (reasonPhrase rt statusCode.orZero statusMessage) }
                headers).1
            context :=
              { res :=
                  { status := some statusCode.orZero
                    headers :=
                      (headersStep rt { w.message with
                        statusMessage := some (reasonPhrase rt statusCode.orZero statusMessage) }
                        headers).2
                    body := w.context.res.body
                    isRaw := w.context.res.isRaw }
                doneCalls := w.context.doneCalls } }
        thrown := none } := by
  have h : ¬ (statusCode.orZero < 100 ∨ statusCode.orZero > 999) := by omega
  simp only [writeHead, if_neg h]

theorem setHeader_statusMessage (rt : Runtime) (m : OutgoingMessage) (name value : String) :
    (m.setHeader rt name value).statusMessage = m.statusMessage := rfl

theorem setHeader_statusCode (rt : Runtime) (m : OutgoingMessage) (name value : String) :
    (m.setHeader rt name value).statusCode = m.statusCode := rfl

theorem setHeader_headers_isSome (rt : Runtime) (m : OutgoingMessage) (name value : String) :
    (m.setHeader rt name value)._headers.isSome = true := rfl

/-- A property of the adapter that `setHeader` preserves is preserved by the merge loop. -/
theorem mergeHeaders_preserves (rt : Runtime) (P : OutgoingMessage → Prop)
    (hP : ∀ m name value, P m → P (m.setHeader rt name value))
    (m : OutgoingMessage) (hs : JSObject String) (hm : P m) : P (mergeHeaders rt m hs) := by
  unfold mergeHeaders
  generalize JSObject.entries hs = l
  induction l generalizing m with
  | nil => exact hm
  | cons kv rest ih =>
    rw [List.foldl_cons]
    apply ih
    split
    · exact hP _ _ _ hm
    · exact hm

theorem headersStep_preserves (rt : Runtime) (P : OutgoingMessage → Prop)
    (hP : ∀ m name value, P m → P (m.setHeader rt name value))
    (m : OutgoingMessage) (headers : Option (JSObject String)) (hm : P m) :
    P (headersStep rt m headers).1 := by
  unfold headersStep
  cases hh : m._headers with
  | none => exact hm
  | some hs0 =>
    cases headers with
    | none => exact hm
    | some hs => exact mergeHeaders_preserves rt P hP m hs hm

theorem headersStep_statusMessage (rt : Runtime) (m : OutgoingMessage)
    (headers : Option (JSObject String)) :
    (headersStep rt m headers).1.statusMessage = m.statusMessage :=
  headersStep_preserves rt (fun x => x.statusMessage = m.statusMessage)
    (fun _ _ _ h => h) m headers rfl

theorem headersStep_statusCode (rt : Runtime) (m : OutgoingMessage)
    (headers : Option (JSObject String)) :
    (headersStep rt m headers).1.statusCode = m.statusCode :=
  headersStep_preserves rt (fun x => x.statusCode = m.statusCode)
    (fun _ _ _ h => h) m headers rfl

theorem end_of_invalid (rt : Runtime) (w : World) (data : Data) (encoding : Option String)
    (h : w.message.statusCode.orZero < 100 ∨ w.message.statusCode.orZero > 999) :
    end_ rt w data encoding =
      { world := w
        thrown := some (.RangeError
          ("Invalid status code: " ++ toString w.message.statusCode.orZero)) } := by
  simp only [end_, writeHead_of_invalid rt w w.message.statusCode none none h]

theorem convertToBody_text (rt : Runtime) (s : String) (encoding : Option String) :
    convertToBody rt (.text s) encoding = .ok (.text s) := rfl

theorem convertToBody_undefined (rt : Runtime) (encoding : Option String) :
    convertToBody rt .undefined encoding = .ok .undefined := rfl

theorem convertToBody_buffer (rt : Runtime) (bytes : List Nat) (encoding : Option String)
    (text : String) (h : rt.bufferToString bytes encoding = .ok text) :
    convertToBody rt (.buffer bytes) encoding = .ok (.text text) := by
  simp only [convertToBody, h]

/-- What `convertToBody` throws is no `RangeError`. -/
theorem convertToBody_ne_rangeError (rt : Runtime) (data : Data) (encoding : Option String)
    (message : String) : convertToBody rt data encoding ≠ .error (.RangeError message) := by
  cases data with
  | undefined => simp [convertToBody]
  | text s => simp [convertToBody]
  | buffer bytes =>
    simp only [convertToBody]
    cases rt.bufferToString bytes encoding with
    | ok text => simp
    | error e => cases e <;> simp [ToStringError.toJSError]

theorem end_of_valid (rt : Runtime) (w : World) (data : Data) (encoding : Option String)
    (body : Data)
    (hlo : 100 ≤ w.message.statusCode.orZero) (hhi : w.message.statusCode.orZero ≤ 999)
    (hbody : convertToBody rt data encoding = .ok body) :
    end_ rt w data encoding =
      { world :=
          { message := (writeHead rt w w.message.statusCode none none).world.message
            context :=
              { res :=
                  { status :=
                      (writeHead rt w w.message.statusCode none none).world.context.res.status
                    headers :=
                      (writeHead rt w w.message.statusCode none none).world.context.res.headers
                    body := body
                    isRaw := true }
                doneCalls := w.context.doneCalls + 1 } }
        thrown := none } := by
  have hv := writeHead_of_valid rt w w.message.statusCode none none hlo hhi
  simp only [end_, hv, hbody]

/-- When the body conversion throws, `end` stops after its `writeHead` call. -/
theorem end_of_throw (rt : Runtime) (w : World) (data : Data) (encoding : Option String)
    (e : JSError)
    (hlo : 100 ≤ w.message.statusCode.orZero) (hhi : w.message.statusCode.orZero ≤ 999)
    (hbody : convertToBody rt data encoding = .error e) :
    end_ rt w data encoding =
      { world := (writeHead rt w w.message.statusCode none none).world
        thrown := some e } := by
  have hv := writeHead_of_valid rt w w.message.statusCode none none hlo hhi
  simp only [end_, hv, hbody]

namespace JSObject

variable {α β : Type}

theorem get_define (o : JSObject α) (k : String) (v : α) (k' : String) :
    get (define o k v) k' = if k = k' then some v else get o k' := by
  induction o with
  | nil =>
    by_cases h : k = k' <;> simp [get, define, h]
  | cons p rest ih =>
    obtain ⟨a, b⟩ := p
    by_cases h1 : a = k
    · by_cases h2 : k = k'
      · subst h1; subst h2; simp [get, define]
      · have h3 : ¬ a = k' := by rw [h1]; exact h2
        simp [get, define, h1, h2]
    · by_cases h2 : a = k'
      · subst h2
        have h3 : ¬ k = a := fun h => h1 h.symm
        simp [get, define, h1, h3]
      · simp [get, define, h1, h2, ih]

theorem get_define_self (o : JSObject α) (k : String) (v : α) :
    get (define o k v) k = some v := by
  rw [get_define, if_pos rfl]

theorem get_define_of_ne (o : JSObject α) (k : String) (v : α) (k' : String) (h : k ≠ k') :
    get (define o k v) k' = get o k' := by
  rw [get_define, if_neg h]

theorem mem_of_get_eq_some (o : JSObject α) (k : String) (v : α) (h : get o k = some v) :
    (k, v) ∈ o := by
  induction o with
  | nil => simp [get] at h
  | cons p rest ih =>
    obtain ⟨a, b⟩ := p
    by_cases h1 : a = k
    · simp only [get, h1, if_true, Option.some.injEq] at h
      subst h1; subst h
      exact List.mem_cons_self _ _
    · simp only [get, h1, if_false] at h
      exact List.mem_cons_of_mem _ (ih h)

theorem mem_define (o : JSObject α) (k : String) (v : α) (p : String × α)
    (h : p ∈ define o k v) : p.1 = k ∨ p ∈ o := by
  induction o with
  | nil =>
    simp only [define, List.mem_singleton] at h
    exact Or.inl (by rw [h])
  | cons q rest ih =>
    obtain ⟨a, b⟩ := q
    by_cases h1 : a = k
    · simp only [define, h1, if_true, List.mem_cons] at h
      rcases h with h | h
      · exact Or.inl (by rw [h])
      · exact Or.inr (List.mem_cons_of_mem _ h)
    · simp only [define, h1, if_false, List.mem_cons] at h
      rcases h with h | h
      · exact Or.inr (by rw [h]; exact List.mem_cons_self _ _)
      · rcases ih h with h2 | h2
        · exact Or.inl h2
        · exact Or.inr (List.mem_cons_of_mem _ h2)

theorem map_fst_define (o : JSObject α) (k : String) (v : α) :
    (define o k v).map Prod.fst = if k ∈ o.map Prod.fst then o.map Prod.fst
      else o.map Prod.fst ++ [k] := by
  induction o with
  | nil => simp [define]
  | cons q rest ih =>
    obtain ⟨a, b⟩ := q
    by_cases h1 : a = k
    · subst h1; simp [define]
    · have h2 : ¬ k = a := fun h => h1 h.symm
      simp only [define, h1, if_false, List.map_cons, ih, List.mem_cons, h2, false_or]
      split <;> simp

theorem nodup_keys_define (o : JSObject α) (k : String) (v : α)
    (h : (o.map Prod.fst).Nodup) : ((define o k v).map Prod.fst).Nodup := by
  rw [map_fst_define]
  split
  · exact h
  · rename_i hk
    exact List.Nodup.append h (List.nodup_singleton k) (by
      intro x hx hx2
      rw [List.mem_singleton] at hx2
      exact hk (hx2 ▸ hx))

theorem mem_iff_get_of_nodup (o : JSObject α) (h : (o.map Prod.fst).Nodup) (k : String)
    (v : α) : (k, v) ∈ o ↔ get o k = some v := by
  constructor
  · intro hm
    induction o with
    | nil => simp at hm
    | cons q rest ih =>
      obtain ⟨a, b⟩ := q
      rw [List.map_cons, List.nodup_cons] at h
      rcases List.mem_cons.1 hm with h2 | h2
      · injection h2 with h3 h4
        subst h3; subst h4
        simp [get]
      · have h0 : k ∈ rest.map Prod.fst := List.mem_map_of_mem Prod.fst h2
        have h1 : ¬ a = k := fun hak => h.1 (hak ▸ h0)
        simp only [get, h1, if_false]
        exact ih h.2 h2
  · exact mem_of_get_eq_some o k v

/-! ### The property write -/

theorem set_of_ne_proto (o : JSObject α) (k : String) (v : α) (h : k ≠ "__proto__") :
    set o k v = define o k v := by
  simp [set, h]

theorem set_proto_of_get_eq_none (o : JSObject α) (v : α) (h : get o "__proto__" = none) :
    set o "__proto__" v = o := by
  simp [set, h]

theorem set_of_get_ne_none (o : JSObject α) (k : String) (v : α) (h : get o k ≠ none) :
    set o k v = define o k v := by
  have h2 : (get o k).isNone = false := by
    cases hg : get o k with
    | none => exact absurd hg h
    | some x => rfl
  simp [set, h2]

theorem set_eq_or (o : JSObject α) (k : String) (v : α) :
    (set o k v = o ∧ k = "__proto__" ∧ get o k = none) ∨ set o k v = define o k v := by
  by_cases h : k = "__proto__" ∧ get o k = none
  · left
    obtain ⟨hk, hg⟩ := h
    subst hk
    exact ⟨set_proto_of_get_eq_none o v hg, rfl, hg⟩
  · right
    by_cases hk : k = "__proto__"
    · exact set_of_get_ne_none o k v (fun hg => h ⟨hk, hg⟩)
    · exact set_of_ne_proto o k v hk

theorem get_set_of_ne (o : JSObject α) (k : String) (v : α) (k' : String) (h : k ≠ k') :
    get (set o k v) k' = get o k' := by
  rcases set_eq_or o k v with h1 | h1
  · rw [h1.1]
  · rw [h1, get_define_of_ne o k v k' h]

/-- A write that is not the inert write to `__proto__` is read back. -/
theorem get_set_self (o : JSObject α) (k : String) (v : α)
    (h : k ≠ "__proto__" ∨ get o k ≠ none) : get (set o k v) k = some v := by
  rcases h with h | h
  · rw [set_of_ne_proto o k v h, get_define_self]
  · rw [set_of_get_ne_none o k v h, get_define_self]

theorem get_proto_set (o : JSObject α) (k : String) (v : α) (h : get o "__proto__" = none) :
    get (set o k v) "__proto__" = none := by
  by_cases hk : k = "__proto__"
  · subst hk
    rw [set_proto_of_get_eq_none o v h, h]
  · rw [get_set_of_ne o k v _ hk, h]

theorem mem_set (o : JSObject α) (k : String) (v : α) (p : String × α)
    (h : p ∈ set o k v) : p.1 = k ∨ p ∈ o := by
  rcases set_eq_or o k v with h1 | h1
  · rw [h1.1] at h
    exact Or.inr h
  · rw [h1] at h
    exact mem_define o k v p h

theorem nodup_keys_set (o : JSObject α) (k : String) (v : α)
    (h : (o.map Prod.fst).Nodup) : ((set o k v).map Prod.fst).Nodup := by
  rcases set_eq_or o k v with h1 | h1
  · rw [h1.1]
    exact h
  · rw [h1]
    exact nodup_keys_define o k v h

/-! ### Runs of property writes -/

theorem setEach_append (key : β → String) (value : β → α) (o : JSObject α)
    (l₁ l₂ : List β) :
    setEach key value o (l₁ ++ l₂) = setEach key value (setEach key value o l₁) l₂ := by
  simp [setEach, List.foldl_append]

theorem setEach_cons (key : β → String) (value : β → α) (o : JSObject α) (x : β)
    (l : List β) :
    setEach key value o (x :: l) = setEach key value (set o (key x) (value x)) l := rfl

theorem get_setEach_of_forall_ne (key : β → String) (value : β → α) (l : List β)
    (o : JSObject α) (k : String) (h : ∀ x ∈ l, key x ≠ k) :
    get (setEach key value o l) k = get o k := by
  induction l generalizing o with
  | nil => rfl
  | cons x rest ih =>
    rw [setEach_cons, ih _ (fun y hy => h y (List.mem_cons_of_mem _ hy)),
      get_set_of_ne _ _ _ _ (h x (List.mem_cons_self _ _))]

/-- The last write to a key decides the value read from it. -/
theorem get_setEach_last (key : β → String) (value : β → α) (o : JSObject α)
    (pre : List β) (x : β) (post : List β) (hx : key x ≠ "__proto__")
    (h : ∀ y ∈ post, key y ≠ key x) :
    get (setEach key value o (pre ++ x :: post)) (key x) = some (value x) := by
  rw [setEach_append, setEach_cons, get_setEach_of_forall_ne key value post _ _ h,
    get_set_self _ _ _ (Or.inl hx)]

/-- Writes leave an object without the own property `__proto__` without it. -/
theorem get_proto_setEach (key : β → String) (value : β → α) (l : List β) (o : JSObject α)
    (h : get o "__proto__" = none) : get (setEach key value o l) "__proto__" = none := by
  induction l generalizing o with
  | nil => exact h
  | cons x rest ih =>
    rw [setEach_cons]
    exact ih _ (get_proto_set o _ _ h)

/-- A list with an element of a given key splits at the last such element. -/
theorem exists_last_key (key : β → String) (k : String) (l : List β)
    (h : ∃ x ∈ l, key x = k) :
    ∃ pre x post, l = pre ++ x :: post ∧ key x = k ∧ ∀ y ∈ post, key y ≠ k := by
  induction l with
  | nil => simp at h
  | cons a rest ih =>
    by_cases hr : ∃ x ∈ rest, key x = k
    · obtain ⟨pre, x, post, hl, hx, hpost⟩ := ih hr
      exact ⟨a :: pre, x, post, by rw [hl]; rfl, hx, hpost⟩
    · obtain ⟨x, hx, hk⟩ := h
      rcases List.mem_cons.1 hx with h1 | h1
      · subst h1
        exact ⟨[], x, rest, rfl, hk, fun y hy hyk => hr ⟨y, hy, hyk⟩⟩
      · exact absurd ⟨x, h1, hk⟩ hr

theorem get_setEach_nil_eq_some (key : β → String) (value : β → α) (l : List β) (k : String)
    (v : α) (h : get (setEach key value [] l) k = some v) :
    k ≠ "__proto__" ∧
    ∃ pre x post,
      l = pre ++ x :: post ∧ key x = k ∧ value x = v ∧ ∀ y ∈ post, key y ≠ k := by
  have hk : k ≠ "__proto__" := by
    intro hk
    rw [hk, get_proto_setEach key value l [] rfl] at h
    exact Option.noConfusion h
  refine ⟨hk, ?_⟩
  by_cases hex : ∃ x ∈ l, key x = k
  · obtain ⟨pre, x, post, hl, hx, hpost⟩ := exists_last_key key k l hex
    refine ⟨pre, x, post, hl, hx, ?_, hpost⟩
    subst hx
    rw [hl, get_setEach_last key value [] pre x post hk hpost] at h
    exact Option.some.inj h
  · rw [get_setEach_of_forall_ne key value l [] k (fun x hx hk => hex ⟨x, hx, hk⟩)] at h
    simp [get] at h

theorem nodup_keys_setEach (key : β → String) (value : β → α) (l : List β) (o : JSObject α)
    (h : (o.map Prod.fst).Nodup) : ((setEach key value o l).map Prod.fst).Nodup := by
  induction l generalizing o with
  | nil => exact h
  | cons x rest ih =>
    rw [setEach_cons]
    exact ih _ (nodup_keys_set o _ _ h)

/-! ### Enumeration -/

theorem mem_keys (o : JSObject α) (k : String) : k ∈ keys o ↔ k ∈ o.map Prod.fst := by
  unfold keys
  rw [List.mem_append, List.mem_insertionSort, List.mem_filter, List.mem_filter]
  constructor
  · rintro (h | h) <;> exact h.1
  · intro h
    cases hk : (arrayIndex? k).isSome
    · exact Or.inr ⟨h, by simp⟩
    · exact Or.inl ⟨h, rfl⟩

theorem mem_entries (o : JSObject α) (k : String) (v : α) :
    (k, v) ∈ entries o ↔ get o k = some v := by
  unfold entries
  rw [List.mem_filterMap]
  constructor
  · rintro ⟨k', _, h⟩
    cases hg : get o k' with
    | none => simp [hg] at h
    | some v' =>
      simp only [hg, Option.map_some', Option.some.injEq, Prod.mk.injEq] at h
      rw [← h.1, ← h.2]
      exact hg
  · intro h
    refine ⟨k, ?_, by simp [h]⟩
    rw [mem_keys]
    exact List.mem_map_of_mem Prod.fst (mem_of_get_eq_some o k v h)

end JSObject

/-! ### The header storage -/

theorem setHeaderEach_cons (rt : Runtime) (m : OutgoingMessage) (c : String × String)
    (calls : List (String × String)) :
    setHeaderEach rt m (c :: calls) = setHeaderEach rt (m.setHeader rt c.1 c.2) calls := rfl

theorem setHeader_headers (rt : Runtime) (m : OutgoingMessage) (name value : String) :
    (m.setHeader rt name value)._headers
      = some (JSObject.set (m._headers.getD []) (rt.toLowerCase name) value) := by
  cases h : m._headers <;> simp [OutgoingMessage.setHeader, h]

theorem setHeader_headerNames (rt : Runtime) (m : OutgoingMessage) (name value : String) :
    (m.setHeader rt name value)._headerNames
      = JSObject.set m._headerNames (rt.toLowerCase name) name := rfl

theorem setHeaderEach_headers_getD (rt : Runtime) (calls : List (String × String))
    (m : OutgoingMessage) :
    (setHeaderEach rt m calls)._headers.getD []
      = JSObject.setEach (fun c => rt.toLowerCase c.1) Prod.snd (m._headers.getD []) calls := by
  induction calls generalizing m with
  | nil => rfl
  | cons c rest ih =>
    rw [setHeaderEach_cons, ih, JSObject.setEach_cons, setHeader_headers]
    rfl

theorem setHeaderEach_headerNames (rt : Runtime) (calls : List (String × String))
    (m : OutgoingMessage) :
    (setHeaderEach rt m calls)._headerNames
      = JSObject.setEach (fun c => rt.toLowerCase c.1) Prod.fst m._headerNames calls := by
  induction calls generalizing m with
  | nil => rfl
  | cons c rest ih =>
    rw [setHeaderEach_cons, ih, JSObject.setEach_cons, setHeader_headerNames]

theorem setHeaderEach_headers_isSome (rt : Runtime) (calls : List (String × String))
    (m : OutgoingMessage) (h : m._headers.isSome = true ∨ calls ≠ []) :
    (setHeaderEach rt m calls)._headers.isSome = true := by
  induction calls generalizing m with
  | nil =>
    rcases h with h | h
    · exact h
    · exact absurd rfl h
  | cons c rest ih =>
    rw [setHeaderEach_cons]
    exact ih _ (Or.inl (setHeader_headers_isSome rt m c.1 c.2))

theorem setHeaderEach_statusMessage (rt : Runtime) (calls : List (String × String))
    (m : OutgoingMessage) (text : Option String) :
    setHeaderEach rt { m with statusMessage := text } calls
      = { setHeaderEach rt m calls with statusMessage := text } := by
  induction calls generalizing m with
  | nil => rfl
  | cons c rest ih =>
    rw [setHeaderEach_cons, setHeaderEach_cons, ← ih]
    rfl

/-- The merge loop of `writeHead` makes the `setHeader` calls the headers object stands
for. -/
theorem mergeHeaders_eq_setHeaderEach (rt : Runtime) (m : OutgoingMessage)
    (hs : JSObject String) : mergeHeaders rt m hs = setHeaderEach rt m (headerCalls hs) := by
  unfold mergeHeaders setHeaderEach headerCalls
  generalize JSObject.entries hs = l
  induction l generalizing m with
  | nil => rfl
  | cons kv rest ih =>
    by_cases hk : kv.1 = ""
    · simp only [List.foldl_cons, hk, ne_eq, not_true_eq_false, if_false, List.filter_cons,
        decide_False, Bool.false_eq_true]
      simpa only [ne_eq] using ih m
    · simp only [List.foldl_cons, hk, ne_eq, not_false_eq_true, if_true, List.filter_cons,
        decide_True]
      simpa only [ne_eq] using ih (m.setHeader rt kv.1 kv.2)

theorem renderHeaders_eq_setEach (m : OutgoingMessage) :
    m._renderHeaders
      = JSObject.setEach (fun kv => (JSObject.get m._headerNames kv.1).getD "undefined")
          Prod.snd [] (JSObject.entries (m._headers.getD [])) := by
  unfold OutgoingMessage._renderHeaders
  cases h : m._headers with
  | none => rfl
  | some hs => rfl

theorem renderHeaders_congr (m₁ m₂ : OutgoingMessage) (h₁ : m₁._headers = m₂._headers)
    (h₂ : m₁._headerNames = m₂._headerNames) : m₁._renderHeaders = m₂._renderHeaders := by
  rw [renderHeaders_eq_setEach, renderHeaders_eq_setEach, h₁, h₂]

theorem nodup_keys_renderHeaders (m : OutgoingMessage) :
    (m._renderHeaders.map Prod.fst).Nodup := by
  rw [renderHeaders_eq_setEach]
  exact JSObject.nodup_keys_setEach _ _ _ [] List.nodup_nil

/-! ### Consistency of the header storage -/

theorem headersConsistent_create (rt : Runtime) (context : Context) :
    HeadersConsistent rt (createOutgoingMessage context).message := by
  intro kv hkv
  simp [createOutgoingMessage] at hkv

theorem headersConsistent_setHeader (rt : Runtime) (m : OutgoingMessage) (name value : String)
    (h : HeadersConsistent rt m) : HeadersConsistent rt (m.setHeader rt name value) := by
  intro kv hkv
  rw [setHeader_headers, Option.getD_some] at hkv
  rw [setHeader_headerNames]
  by_cases hk : rt.toLowerCase name = kv.1
  · by_cases hw : rt.toLowerCase name ≠ "__proto__" ∨
        JSObject.get m._headerNames (rt.toLowerCase name) ≠ none
    · rw [← hk, JSObject.get_set_self _ _ _ hw, Option.map_some']
    · exfalso
      have hproto : rt.toLowerCase name = "__proto__" := by
        by_contra hne
        exact hw (Or.inl hne)
      have hnone : JSObject.get m._headerNames (rt.toLowerCase name) = none := by
        by_contra hne
        exact hw (Or.inr hne)
      have hstored : ∃ p ∈ m._headers.getD [], p.1 = rt.toLowerCase name := by
        cases hg : JSObject.get (m._headers.getD []) (rt.toLowerCase name) with
        | none =>
          rw [hproto] at hg hkv
          rw [JSObject.set_proto_of_get_eq_none _ _ hg] at hkv
          exact ⟨kv, hkv, hk.symm⟩
        | some v0 =>
          exact ⟨(rt.toLowerCase name, v0), JSObject.mem_of_get_eq_some _ _ _ hg, rfl⟩
      obtain ⟨p, hp, hp1⟩ := hstored
      have hcons := h p hp
      rw [hp1, hnone] at hcons
      exact Option.noConfusion hcons
  · rw [JSObject.get_set_of_ne _ _ _ _ hk]
    rcases JSObject.mem_set _ _ _ _ hkv with h1 | h1
    · exact absurd h1.symm hk
    · exact h kv h1

theorem headersConsistent_setHeaderEach (rt : Runtime) (calls : List (String × String))
    (m : OutgoingMessage) (h : HeadersConsistent rt m) :
    HeadersConsistent rt (setHeaderEach rt m calls) := by
  induction calls generalizing m with
  | nil => exact h
  | cons c rest ih =>
    rw [setHeaderEach_cons]
    exact ih _ (headersConsistent_setHeader rt m c.1 c.2 h)

/-- In a consistent storage a stored header key has a recorded name that lower-cases to it. -/
theorem name_of_get (rt : Runtime) (m : OutgoingMessage) (h : HeadersConsistent rt m)
    (key value : String) (hg : JSObject.get (m._headers.getD []) key = some value) :
    ∃ name, JSObject.get m._headerNames key = some name ∧ rt.toLowerCase name = key := by
  have h1 := h (key, value) (JSObject.mem_of_get_eq_some _ _ _ hg)
  cases hn : JSObject.get m._headerNames key with
  | none => simp [hn] at h1
  | some name =>
    refine ⟨name, rfl, ?_⟩
    simpa [hn] using h1

/-- What the rendering of a consistent storage holds under a name. -/
theorem get_renderHeaders (rt : Runtime) (m : OutgoingMessage) (h : HeadersConsistent rt m)
    (name value : String) :
    JSObject.get m._renderHeaders name = some value ↔
      name ≠ "__proto__" ∧
      JSObject.get (m._headers.getD []) (rt.toLowerCase name) = some value ∧
      JSObject.get m._headerNames (rt.toLowerCase name) = some name := by
  rw [renderHeaders_eq_setEach]
  constructor
  · intro hg
    obtain ⟨hne, pre, kv, post, hl, hk, hv, _⟩ :=
      JSObject.get_setEach_nil_eq_some _ _ _ _ _ hg
    have hmem : (kv.1, kv.2) ∈ JSObject.entries (m._headers.getD []) := by
      rw [hl]; simp
    rw [JSObject.mem_entries] at hmem
    obtain ⟨n, hn, hlow⟩ := name_of_get rt m h kv.1 kv.2 hmem
    rw [hn, Option.getD_some] at hk
    subst hk
    rw [hlow, hn, ← hv]
    exact ⟨hne, hmem, rfl⟩
  · rintro ⟨hne, hv, hn⟩
    have hmem : (rt.toLowerCase name, value) ∈ JSObject.entries (m._headers.getD []) :=
      (JSObject.mem_entries _ _ _).2 hv
    obtain ⟨pre, kv, post, hl, hk, hpost⟩ :=
      JSObject.exists_last_key
        (fun kv : String × String => (JSObject.get m._headerNames kv.1).getD "undefined") name
        (JSObject.entries (m._headers.getD []))
        ⟨(rt.toLowerCase name, value), hmem, by simp [hn]⟩
    have hkv : (kv.1, kv.2) ∈ JSObject.entries (m._headers.getD []) := by
      rw [hl]; simp
    rw [JSObject.mem_entries] at hkv
    obtain ⟨n, hn2, hlow⟩ := name_of_get rt m h kv.1 kv.2 hkv
    have hk2 : n = name := by simpa [hn2] using hk
    subst hk2
    rw [hlow] at hv
    have hval : kv.2 = value := Option.some.inj (hkv.symm.trans hv)
    have hlast := JSObject.get_setEach_last
      (fun kv : String × String => (JSObject.get m._headerNames kv.1).getD "undefined")
      Prod.snd [] pre kv post
      (by
        show (JSObject.get m._headerNames kv.1).getD "undefined" ≠ "__proto__"
        rw [hk]
        exact hne)
      (by
        intro y hy
        show _ ≠ (JSObject.get m._headerNames kv.1).getD "undefined"
        rw [hk]
        exact hpost y hy)
    rw [hl]
    simp only [hk] at hlast
    rw [hlast, hval]

/-! ### `writeHead` and the header storage -/

theorem headersStep_of_none (rt : Runtime) (m : OutgoingMessage)
    (headers : Option (JSObject String)) (h : m._headers = none) :
    headersStep rt m headers = (m, headers) := by
  simp only [headersStep, h]

theorem headersStep_of_isSome (rt : Runtime) (m : OutgoingMessage)
    (headers : Option (JSObject String)) (h : m._headers.isSome = true) :
    headersStep rt m headers
      = (setHeaderEach rt m ((headers.map headerCalls).getD []),
          some (setHeaderEach rt m ((headers.map headerCalls).getD []))._renderHeaders) := by
  cases hm : m._headers with
  | none => simp [hm] at h
  | some hs0 =>
    cases headers with
    | none => simp only [headersStep, hm]; rfl
    | some hs =>
      simp only [headersStep, hm, mergeHeaders_eq_setHeaderEach]
      rfl

theorem writeHead_statusCode (rt : Runtime) (w : World) (statusCode : StatusCode)
    (statusMessage : Option String) (headers : Option (JSObject String)) :
    (writeHead rt w statusCode statusMessage headers).world.message.statusCode
      = w.message.statusCode := by
  by_cases hv : statusCode.orZero < 100 ∨ statusCode.orZero > 999
  · rw [writeHead_of_invalid rt w statusCode statusMessage headers hv]
  · rw [writeHead_of_valid rt w statusCode statusMessage headers (by omega) (by omega)]
    exact headersStep_statusCode rt _ headers

theorem writeHead_headers_isSome (rt : Runtime) (w : World) (statusCode : StatusCode)
    (statusMessage : Option String) (headers : Option (JSObject String)) :
    (writeHead rt w statusCode statusMessage headers).world.message._headers.isSome
      = w.message._headers.isSome := by
  by_cases hv : statusCode.orZero < 100 ∨ statusCode.orZero > 999
  · rw [writeHead_of_invalid rt w statusCode statusMessage headers hv]
  · rw [writeHead_of_valid rt w statusCode statusMessage headers (by omega) (by omega)]
    cases hm : w.message._headers.isSome with
    | false =>
      have hn : w.message._headers = none := by
        cases h0 : w.message._headers with
        | none => rfl
        | some x => simp [h0] at hm
      have hn1 : ({ w.message with
          statusMessage := some (reasonPhrase rt statusCode.orZero statusMessage) }
            : OutgoingMessage)._headers = none := hn
      simp only [headersStep_of_none rt _ headers hn1]
      exact hm
    | true =>
      have h1 : ({ w.message with
          statusMessage := some (reasonPhrase rt statusCode.orZero statusMessage) }
            : OutgoingMessage)._headers.isSome = true := hm
      simp only [headersStep_of_isSome rt _ headers h1]
      exact setHeaderEach_headers_isSome rt _ _ (Or.inl h1)

/-- With header storage initialized, a successful `writeHead` writes the rendering of the
storage it leaves. -/
theorem writeHead_headers_of_isSome (rt : Runtime) (w : World) (statusCode : StatusCode)
    (statusMessage : Option String) (headers : Option (JSObject String))
    (hlo : 100 ≤ statusCode.orZero) (hhi : statusCode.orZero ≤ 999)
    (h : w.message._headers.isSome = true) :
    (writeHead rt w statusCode statusMessage headers).world.context.res.headers
      = some (writeHead rt w statusCode statusMessage headers).world.message._renderHeaders := by
  rw [writeHead_of_valid rt w statusCode statusMessage headers hlo hhi]
  have h1 : ({ w.message with
      statusMessage := some (reasonPhrase rt statusCode.orZero statusMessage) }
        : OutgoingMessage)._headers.isSome = true := h
  simp only [headersStep_of_isSome rt _ headers h1]

theorem writeHeadEach_append (rt : Runtime) (w : World) (calls : List WriteHeadCall)
    (last : WriteHeadCall) :
    writeHeadEach rt w (calls ++ [last])
      = (writeHead rt (writeHeadEach rt w calls) last.statusCode last.statusMessage
          last.headers).world := by
  simp [writeHeadEach, List.foldl_append]

theorem writeHeadEach_statusCode (rt : Runtime) (calls : List WriteHeadCall) (w : World) :
    (writeHeadEach rt w calls).message.statusCode = w.message.statusCode := by
  induction calls generalizing w with
  | nil => rfl
  | cons c rest ih =>
    show (writeHeadEach rt (writeHead rt w c.statusCode c.statusMessage c.headers).world
      rest).message.statusCode = _
    rw [ih, writeHead_statusCode]

theorem writeHeadEach_headers_isSome (rt : Runtime) (calls : List WriteHeadCall) (w : World) :
    (writeHeadEach rt w calls).message._headers.isSome = w.message._headers.isSome := by
  induction calls generalizing w with
  | nil => rfl
  | cons c rest ih =>
    show (writeHeadEach rt (writeHead rt w c.statusCode c.statusMessage c.headers).world
      rest).message._headers.isSome = _
    rw [ih, writeHead_headers_isSome]

/-- What the `writeHead` call of `end` leaves in the descriptor's `status` and `headers`. -/
theorem writeHead_current_status_headers (rt : Runtime) (w : World)
    (hlo : 100 ≤ w.message.statusCode.orZero) (hhi : w.message.statusCode.orZero ≤ 999) :
    (writeHead rt w w.message.statusCode none none).world.context.res.status
      = some w.message.statusCode.orZero ∧
    (writeHead rt w w.message.statusCode none none).world.context.res.headers
      = if w.message._headers.isSome then some w.message._renderHeaders else none := by
  rw [writeHead_of_valid rt w w.message.statusCode none none hlo hhi]
  refine ⟨rfl, ?_⟩
  cases hm : w.message._headers.isSome with
  | false =>
    have hn : w.message._headers = none := by
      cases h0 : w.message._headers with
      | none => rfl
      | some x => simp [h0] at hm
    simp [headersStep, hn]
  | true =>
    have h1 : ({ w.message with
        statusMessage := some (reasonPhrase rt w.message.statusCode.orZero none) }
          : OutgoingMessage)._headers.isSome = true := hm
    simp only [headersStep_of_isSome rt _ none h1, if_true]
    exact congrArg some (renderHeaders_congr _ _ rfl rfl)

/-- After `end`, whether or not its body conversion throws, the descriptor's `status` and
`headers` are the ones its `writeHead` call wrote. -/
theorem end_status_headers (rt : Runtime) (w : World) (data : Data) (encoding : Option String)
    (hlo : 100 ≤ w.message.statusCode.orZero) (hhi : w.message.statusCode.orZero ≤ 999) :
    (end_ rt w data encoding).world.context.res.status = some w.message.statusCode.orZero ∧
    (end_ rt w data encoding).world.context.res.headers
      = if w.message._headers.isSome then some w.message._renderHeaders else none := by
  have hw := writeHead_current_status_headers rt w hlo hhi
  cases hb : convertToBody rt data encoding with
  | ok body =>
    rw [end_of_valid rt w data encoding body hlo hhi hb]
    exact hw
  | error e =>
    rw [end_of_throw rt w data encoding e hlo hhi hb]
    exact hw

theorem headersConsistent_writeHead (rt : Runtime) (w : World) (statusCode : StatusCode)
    (statusMessage : Option String) (headers : Option (JSObject String))
    (h : HeadersConsistent rt w.message) :
    HeadersConsistent rt (writeHead rt w statusCode statusMessage headers).world.message := by
  by_cases hv : statusCode.orZero < 100 ∨ statusCode.orZero > 999
  · rw [writeHead_of_invalid rt w statusCode statusMessage headers hv]
    exact h
  · rw [writeHead_of_valid rt w statusCode statusMessage headers (by omega) (by omega)]
    exact headersStep_preserves rt (HeadersConsistent rt)
      (fun m name value hm => headersConsistent_setHeader rt m name value hm) _ headers h

theorem headersConsistent_end (rt : Runtime) (w : World) (data : Data)
    (encoding : Option String) (h : HeadersConsistent rt w.message) :
    HeadersConsistent rt (end_ rt w data encoding).world.message := by
  by_cases hv : w.message.statusCode.orZero < 100 ∨ w.message.statusCode.orZero > 999
  · rw [end_of_invalid rt w data encoding hv]
    exact h
  · cases hb : convertToBody rt data encoding with
    | ok body =>
      rw [end_of_valid rt w data encoding body (by omega) (by omega) hb]
      exact headersConsistent_writeHead rt w w.message.statusCode none none h
    | error e =>
      rw [end_of_throw rt w data encoding e (by omega) (by omega) hb]
      exact headersConsistent_writeHead rt w w.message.statusCode none none h

/-- After `writeHead` calls, the last one with a valid status code, `end` on an adapter whose
current `statusCode` is valid leaves the status it computes from that `statusCode`; it leaves
the headers of the last `writeHead` call when header storage was initialized before the calls,
and no headers when it was not. -/
theorem end_after_writeHeadEach (rt : Runtime) (w : World) (calls : List WriteHeadCall)
    (last : WriteHeadCall) (data : Data) (encoding : Option String)
    (hlast : 100 ≤ last.statusCode.orZero ∧ last.statusCode.orZero ≤ 999)
    (hcode : 100 ≤ w.message.statusCode.orZero ∧ w.message.statusCode.orZero ≤ 999) :
    (writeHeadEach rt w (calls ++ [last])).context.res.status
      = some last.statusCode.orZero ∧
    (end_ rt (writeHeadEach rt w (calls ++ [last])) data encoding).world.context.res.status
      = some w.message.statusCode.orZero ∧
    (w.message._headers.isSome = true →
      (end_ rt (writeHeadEach rt w (calls ++ [last])) data encoding).world.context.res.headers
        = (writeHeadEach rt w (calls ++ [last])).context.res.headers) ∧
    (w.message._headers = none →
      (end_ rt (writeHeadEach rt w (calls ++ [last])) data encoding).world.context.res.headers
        = none) := by
  have hsc : (writeHeadEach rt w (calls ++ [last])).message.statusCode = w.message.statusCode :=
    writeHeadEach_statusCode rt _ w
  have hsome : (writeHeadEach rt w (calls ++ [last])).message._headers.isSome
      = w.message._headers.isSome := writeHeadEach_headers_isSome rt _ w
  have hend := end_status_headers rt (writeHeadEach rt w (calls ++ [last])) data encoding
    (by rw [hsc]; exact hcode.1) (by rw [hsc]; exact hcode.2)
  refine ⟨?_, ?_, ?_, ?_⟩
  · rw [writeHeadEach_append,
      writeHead_of_valid rt _ last.statusCode last.statusMessage last.headers hlast.1 hlast.2]
  · rw [hend.1, hsc]
  · intro hinit
    rw [hend.2, hsome, hinit, if_pos rfl, writeHeadEach_append]
    rw [writeHead_headers_of_isSome rt _ last.statusCode last.statusMessage last.headers
      hlast.1 hlast.2 (by rw [writeHeadEach_headers_isSome]; exact hinit)]
  · intro hnone
    rw [hend.2, hsome, hnone]
    rfl

/-! ## The claims -/

/-- Claim C1: for every integer status code from 100 to 999, every adapter state, every optional
status message and every optional headers argument, `writeHead` does not raise and leaves the
descriptor's `status` equal to the status code, which is its own 32-bit coercion. -/
theorem writeHead_accepts_valid_code (rt : Runtime) (w : World) (statusCode : Int)
    (statusMessage : Option String) (headers : Option (JSObject String))
    (hlo : 100 ≤ statusCode) (hhi : statusCode ≤ 999) :
    (writeHead rt w (.number statusCode) statusMessage headers).thrown = none ∧
    (writeHead rt w (.number statusCode) statusMessage headers).world.context.res.status
      = some statusCode ∧
    toInt32 statusCode = statusCode := by
  have hc : toInt32 statusCode = statusCode := toInt32_of_int32 statusCode (by omega) (by omega)
  have hv := writeHead_of_valid rt w (.number statusCode) statusMessage headers
    (by simp only [StatusCode.orZero]; omega) (by simp only [StatusCode.orZero]; omega)
  rw [hv]
  exact ⟨rfl, by simp only [StatusCode.orZero, hc], hc⟩

/-- Claim C1 at `writeHead(404, undefined, ("X-Only": "v"))` on a fresh adapter. -/
theorem writeHead_accepts_valid_code_witness :
    (100 : Int) ≤ 404 ∧ (404 : Int) ≤ 999 ∧
    (writeHead exampleRuntime (createOutgoingMessage emptyContext) (.number 404) none
      (some [("X-Only", "v")])).thrown = none ∧
    (writeHead exampleRuntime (createOutgoingMessage emptyContext) (.number 404) none
      (some [("X-Only", "v")])).world.context.res.status = some 404 :=
  ⟨by decide, by decide,
    (writeHead_accepts_valid_code exampleRuntime (createOutgoingMessage emptyContext) 404 none
      (some [("X-Only", "v")]) (by decide) (by decide)).1,
    (writeHead_accepts_valid_code exampleRuntime (createOutgoingMessage emptyContext) 404 none
      (some [("X-Only", "v")]) (by decide) (by decide)).2.1⟩

/-- Claim C2 fails as stated: `4294967496` is an integer above 999, yet `writeHead(4294967496)`
does not raise and writes status `200`, the 32-bit coercion of its argument. -/
theorem writeHead_accepts_wrapped_code :
    (4294967496 : Int) > 999 ∧
    (writeHead exampleRuntime (createOutgoingMessage emptyContext) (.number 4294967496) none
      none).thrown = none ∧
    (writeHead exampleRuntime (createOutgoingMessage emptyContext) (.number 4294967496) none
      none).world.context.res.status = some 200 := by
  decide

/-- Claim C2, amended: for every integer status code whose 32-bit coercion is below 100 or above
999, `writeHead` raises the range error, naming the coerced code, and the descriptor's `status`
is what it was before the call. -/
theorem writeHead_rejects_coerced_code (rt : Runtime) (w : World) (statusCode : Int)
    (statusMessage : Option String) (headers : Option (JSObject String))
    (h : toInt32 statusCode < 100 ∨ toInt32 statusCode > 999) :
    (writeHead rt w (.number statusCode) statusMessage headers).thrown
      = some (.RangeError ("Invalid status code: " ++ toString (toInt32 statusCode))) ∧
    (writeHead rt w (.number statusCode) statusMessage headers).world.context.res.status
      = w.context.res.status := by
  rw [writeHead_of_invalid rt w (.number statusCode) statusMessage headers h]
  exact ⟨rfl, rfl⟩

/-- Claim C2, amended, at `writeHead(1000)` on a fresh adapter. -/
theorem writeHead_rejects_coerced_code_witness :
    (toInt32 1000 < 100 ∨ toInt32 1000 > 999) ∧
    (writeHead exampleRuntime (createOutgoingMessage emptyContext) (.number 1000) none
      none).thrown = some (.RangeError ("Invalid status code: " ++ toString (toInt32 1000))) ∧
    (writeHead exampleRuntime (createOutgoingMessage emptyContext) (.number 1000) none
      none).world.context.res.status = emptyContext.res.status :=
  ⟨by decide,
    writeHead_rejects_coerced_code exampleRuntime (createOutgoingMessage emptyContext) 1000 none
      none (by decide)⟩

/-- Claim C3 fails as stated. On a freshly created adapter, whose `statusCode` was never
assigned, `end("hello")` raises the range error for the coerced code `0` and the completion
signal is not invoked. On an adapter with status code `200`, `end` of a buffer with the
encoding name `bogus` raises the `TypeError` of the decoding, and the completion signal is not
invoked either. -/
theorem end_raises_without_completing :
    (end_ exampleRuntime (createOutgoingMessage emptyContext) (.text "hello") none).thrown
      = some (.RangeError "Invalid status code: 0") ∧
    (end_ exampleRuntime (createOutgoingMessage emptyContext) (.text "hello")
      none).world.context.doneCalls = 0 ∧
    (end_ exampleRuntime (adapterWithStatus 200) (.buffer [104, 105]) (some "bogus")).thrown
      = some (.TypeError "Unknown encoding: bogus") ∧
    (end_ exampleRuntime (adapterWithStatus 200) (.buffer [104, 105])
      (some "bogus")).world.context.doneCalls = 0 := by
  decide

/-- Claim C3, amended: for every adapter state whose current `statusCode` coerces into 100..999
and every data and encoding argument for which the body conversion returns (text, absent data,
or a buffer that `toString` decodes under the encoding), `end` first makes the call
`writeHead(this.statusCode)`, which does not raise and whose adapter state, `status` and
`headers` are the ones `end` leaves, and `end` invokes the completion signal exactly once. -/
theorem end_writes_head_then_completes (rt : Runtime) (w : World) (data : Data)
    (encoding : Option String) (body : Data)
    (hlo : 100 ≤ w.message.statusCode.orZero) (hhi : w.message.statusCode.orZero ≤ 999)
    (hbody : convertToBody rt data encoding = .ok body) :
    (writeHead rt w w.message.statusCode none none).thrown = none ∧
    (end_ rt w data encoding).thrown = none ∧
    (end_ rt w data encoding).world.message
      = (writeHead rt w w.message.statusCode none none).world.message ∧
    (end_ rt w data encoding).world.context.res.status
      = (writeHead rt w w.message.statusCode none none).world.context.res.status ∧
    (end_ rt w data encoding).world.context.res.headers
      = (writeHead rt w w.message.statusCode none none).world.context.res.headers ∧
    (end_ rt w data encoding).world.context.doneCalls = w.context.doneCalls + 1 := by
  rw [end_of_valid rt w data encoding body hlo hhi hbody]
  refine ⟨?_, rfl, rfl, rfl, rfl, rfl⟩
  rw [writeHead_of_valid rt w w.message.statusCode none none hlo hhi]

/-- Claim C3, amended, at `end(buffer, "utf8")` for the two bytes `104, 105` on an adapter with
status code `200`. -/
theorem end_writes_head_then_completes_witness :
    (end_ exampleRuntime (adapterWithStatus 200) (.buffer [104, 105]) (some "utf8")).thrown
      = none ∧
    (end_ exampleRuntime (adapterWithStatus 200) (.buffer [104, 105])
      (some "utf8")).world.context.doneCalls = 1 :=
  ⟨(end_writes_head_then_completes exampleRuntime (adapterWithStatus 200) (.buffer [104, 105])
      (some "utf8") (.text "hi") (by decide) (by decide) rfl).2.1,
    (end_writes_head_then_completes exampleRuntime (adapterWithStatus 200) (.buffer [104, 105])
      (some "utf8") (.text "hi") (by decide) (by decide) rfl).2.2.2.2.2⟩

/-- Claim C4, the code at the failing input. On an adapter with status code `200` and no
`setHeader` call, `writeHead(200, undefined, headers)` writes the headers object with the single
header `X-Only: v`, and the `end("body")` that follows leaves `headers` undefined: its own
`writeHead(this.statusCode)` call passes no headers. In the sibling path, on an adapter in
progressive use, the headers that the same `writeHead` call writes are the ones `end` leaves.
The status goes the same way: after `writeHead(404)` on an adapter whose `statusCode` is `200`,
`end` leaves status `200`. -/
theorem end_overwrites_written_head :
    (writeHead exampleRuntime (adapterWithStatus 200) (.number 200) none
      (some [("X-Only", "v")])).world.context.res.headers = some [("X-Only", "v")] ∧
    (end_ exampleRuntime
      (writeHead exampleRuntime (adapterWithStatus 200) (.number 200) none
        (some [("X-Only", "v")])).world
      (.text "body") none).world.context.res.headers = none ∧
    (writeHead exampleRuntime progressiveAdapter (.number 200) none
      (some [("X-Only", "v")])).world.context.res.headers
        = some [("X-A", "1"), ("X-Only", "v")] ∧
    (end_ exampleRuntime
      (writeHead exampleRuntime progressiveAdapter (.number 200) none
        (some [("X-Only", "v")])).world
      (.text "body") none).world.context.res.headers
        = some [("X-A", "1"), ("X-Only", "v")] ∧
    (writeHead exampleRuntime (adapterWithStatus 200) (.number 404) none
      none).world.context.res.status = some 404 ∧
    (end_ exampleRuntime
      (writeHead exampleRuntime (adapterWithStatus 200) (.number 404) none none).world
      (.text "body") none).world.context.res.status = some 200 := by
  decide

/-- Claim C5: when header storage is initialized, `writeHead(code, msg, headers)` with a
valid code yields the same outcome (adapter state, descriptor, no exception) as the calls
`setHeader(k, headers[k])` for each non-empty key `k` in key order followed by
`writeHead(code, msg)`; and, the storage being consistent, every header of the rendering before
the call whose lower-cased name is not a key of `headers`, keys being compared as `setHeader`
compares them, lower-cased and the empty key left out, is present, with the same name and value,
in the headers the call writes. -/
theorem writeHead_merges_headers (rt : Runtime) (w : World) (statusCode : StatusCode)
    (statusMessage : Option String) (headers : JSObject String)
    (hinit : w.message._headers.isSome = true)
    (hlo : 100 ≤ statusCode.orZero) (hhi : statusCode.orZero ≤ 999) :
    writeHead rt w statusCode statusMessage (some headers)
      = writeHead rt { w with message := setHeaderEach rt w.message (headerCalls headers) }
          statusCode statusMessage none ∧
    (HeadersConsistent rt w.message →
      ∀ name value, JSObject.get w.message._renderHeaders name = some value →
        (∀ k ∈ JSObject.keys headers, k ≠ "" → rt.toLowerCase k ≠ rt.toLowerCase name) →
        ∃ rendered,
          (writeHead rt w statusCode statusMessage (some headers)).world.context.res.headers
            = some rendered ∧
          JSObject.get rendered name = some value ∧ (name, value) ∈ rendered) := by
  have h1 : ({ w.message with
      statusMessage := some (reasonPhrase rt statusCode.orZero statusMessage) }
        : OutgoingMessage)._headers.isSome = true := hinit
  have h2 : ({ setHeaderEach rt w.message (headerCalls headers) with
      statusMessage := some (reasonPhrase rt statusCode.orZero statusMessage) }
        : OutgoingMessage)._headers.isSome = true :=
    setHeaderEach_headers_isSome rt _ _ (Or.inl hinit)
  constructor
  · rw [writeHead_of_valid rt w statusCode statusMessage (some headers) hlo hhi,
      writeHead_of_valid rt _ statusCode statusMessage none hlo hhi]
    simp only [headersStep_of_isSome rt _ _ h1, headersStep_of_isSome rt _ _ h2,
      Option.map_some', Option.getD_some, Option.map_none', Option.getD_none,
      setHeaderEach_statusMessage]
    rfl
  · intro hcons name value hget hkeys
    rw [writeHead_of_valid rt w statusCode statusMessage (some headers) hlo hhi]
    simp only [headersStep_of_isSome rt _ _ h1, Option.map_some', Option.getD_some]
    have hc : HeadersConsistent rt (setHeaderEach rt
        { w.message with
          statusMessage := some (reasonPhrase rt statusCode.orZero statusMessage) }
        (headerCalls headers)) :=
      headersConsistent_setHeaderEach rt _ _ hcons
    have hne : ∀ c ∈ headerCalls headers, rt.toLowerCase c.1 ≠ rt.toLowerCase name := by
      intro c hcm
      unfold headerCalls at hcm
      rw [List.mem_filter] at hcm
      have hk : c.1 ∈ JSObject.keys headers := by
        rw [JSObject.mem_keys]
        exact List.mem_map_of_mem Prod.fst
          (JSObject.mem_of_get_eq_some _ _ _ ((JSObject.mem_entries headers c.1 c.2).1 hcm.1))
      exact hkeys c.1 hk (by simpa using hcm.2)
    have hold := (get_renderHeaders rt w.message hcons name value).1 hget
    have hnew : JSObject.get (setHeaderEach rt
        { w.message with
          statusMessage := some (reasonPhrase rt statusCode.orZero statusMessage) }
        (headerCalls headers))._renderHeaders name = some value := by
      rw [get_renderHeaders rt _ hc, setHeaderEach_headers_getD, setHeaderEach_headerNames,
        JSObject.get_setEach_of_forall_ne _ _ _ _ _ hne,
        JSObject.get_setEach_of_forall_ne _ _ _ _ _ hne]
      exact hold
    exact ⟨_, rfl, hnew, JSObject.mem_of_get_eq_some _ _ _ hnew⟩

/-- Claim C5 at `setHeader("X-A", "1")` followed by `writeHead(200, undefined, headers)`
with the single header `X-B: 2`: the header `X-A: 1` is still rendered. -/
theorem writeHead_merges_headers_witness :
    ∃ rendered,
      (writeHead exampleRuntime
        { message := (createOutgoingMessage emptyContext).message.setHeader exampleRuntime
            "X-A" "1"
          context := emptyContext }
        (.number 200) none (some [("X-B", "2")])).world.context.res.headers = some rendered ∧
      JSObject.get rendered "X-A" = some "1" ∧ ("X-A", "1") ∈ rendered :=
  (writeHead_merges_headers exampleRuntime
    { message := (createOutgoingMessage emptyContext).message.setHeader exampleRuntime
        "X-A" "1"
      context := emptyContext }
    (.number 200) none [("X-B", "2")] (by decide) (by decide) (by decide)).2
    (by decide) "X-A" "1" (by decide) (by decide)

/-- Claim C6: on an adapter whose header storage is uninitialized, for every valid status code and
every headers argument, `writeHead` does not raise, sets the descriptor's `headers` to exactly
the argument and leaves the header storage uninitialized, the name map unchanged. -/
theorem writeHead_pure_bulk (rt : Runtime) (w : World) (statusCode : StatusCode)
    (statusMessage : Option String) (headers : Option (JSObject String))
    (hfresh : w.message._headers = none)
    (hlo : 100 ≤ statusCode.orZero) (hhi : statusCode.orZero ≤ 999) :
    (writeHead rt w statusCode statusMessage headers).thrown = none ∧
    (writeHead rt w statusCode statusMessage headers).world.context.res.headers = headers ∧
    (writeHead rt w statusCode statusMessage headers).world.message._headers = none ∧
    (writeHead rt w statusCode statusMessage headers).world.message._headerNames
      = w.message._headerNames := by
  rw [writeHead_of_valid rt w statusCode statusMessage headers hlo hhi]
  simp only [headersStep, hfresh, and_self]

/-- Claim C6 at `writeHead(200, undefined, headers)` with the single header `X-Only: v` on a fresh
adapter. -/
theorem writeHead_pure_bulk_witness :
    (writeHead exampleRuntime (createOutgoingMessage emptyContext) (.number 200) none
      (some [("X-Only", "v")])).world.context.res.headers = some [("X-Only", "v")] :=
  (writeHead_pure_bulk exampleRuntime (createOutgoingMessage emptyContext) (.number 200) none
    (some [("X-Only", "v")]) (by decide) (by decide) (by decide)).2.1

/-- Claim C7 fails as stated: after `setHeader("__proto__", "x")` on a fresh adapter, the key
`__proto__` reaches the legacy accessor, nothing is stored, and `writeHead(200)` writes a
headers object without any entry. -/
theorem setHeader_proto_leaves_no_entry :
    (setHeaderEach exampleRuntime (createOutgoingMessage emptyContext).message
      [("__proto__", "x")])._headers = some [] ∧
    (writeHead exampleRuntime
      { createOutgoingMessage emptyContext with
        message := setHeaderEach exampleRuntime (createOutgoingMessage emptyContext).message
          [("__proto__", "x")] }
      (.number 200) none none).world.context.res.headers = some [] := by
  decide

/-- Claim C7, amended: after a non-empty sequence of `setHeader(name, value)` calls on an adapter
with fresh header storage, `writeHead` with a valid code and no headers argument writes a headers
object that has at most one entry per lower-cased name, has an entry for the lower-cased name of
every call unless that lower-cased name is `__proto__`, holds no entry that is not the pair
`(name, value)` of one of the calls, and in which, for a name whose lower-casing is not
`__proto__`, `(name, value)` is an entry exactly when it is the pair of a call that no later
call with the same lower-cased name follows: the original-case name and the value of the last
call for that lower-cased name. -/
theorem setHeader_calls_render (rt : Runtime) (w : World) (calls : List (String × String))
    (statusCode : StatusCode) (statusMessage : Option String)
    (hfresh : w.message._headers = none ∧ w.message._headerNames = [])
    (hne : calls ≠ [])
    (hlo : 100 ≤ statusCode.orZero) (hhi : statusCode.orZero ≤ 999) :
    ∃ rendered,
      (writeHead rt { w with message := setHeaderEach rt w.message calls } statusCode
        statusMessage none).world.context.res.headers = some rendered ∧
      (rendered.map (fun e => rt.toLowerCase e.1)).Nodup ∧
      (∀ c ∈ calls, rt.toLowerCase c.1 ≠ "__proto__" →
        ∃ e ∈ rendered, rt.toLowerCase e.1 = rt.toLowerCase c.1) ∧
      (∀ e ∈ rendered, e ∈ calls) ∧
      ∀ name value, rt.toLowerCase name ≠ "__proto__" →
        ((name, value) ∈ rendered ↔
          ∃ pre post, calls = pre ++ (name, value) :: post ∧
            ∀ c ∈ post, rt.toLowerCase c.1 ≠ rt.toLowerCase name) := by
  have hcons0 : HeadersConsistent rt w.message := by
    intro kv hkv
    simp [hfresh.1] at hkv
  have hcons : HeadersConsistent rt (setHeaderEach rt w.message calls) :=
    headersConsistent_setHeaderEach rt calls _ hcons0
  have hsome : (setHeaderEach rt w.message calls)._headers.isSome = true :=
    setHeaderEach_headers_isSome rt calls _ (Or.inr hne)
  have hhs : (setHeaderEach rt w.message calls)._headers.getD []
      = JSObject.setEach (fun c => rt.toLowerCase c.1) Prod.snd [] calls := by
    rw [setHeaderEach_headers_getD, hfresh.1]; rfl
  have hnames : (setHeaderEach rt w.message calls)._headerNames
      = JSObject.setEach (fun c => rt.toLowerCase c.1) Prod.fst [] calls := by
    rw [setHeaderEach_headerNames, hfresh.2]
  have h1 : ({ setHeaderEach rt w.message calls with
      statusMessage := some (reasonPhrase rt statusCode.orZero statusMessage) }
        : OutgoingMessage)._headers.isSome = true := hsome
  have hres : (writeHead rt { w with message := setHeaderEach rt w.message calls } statusCode
      statusMessage none).world.context.res.headers
        = some (setHeaderEach rt w.message calls)._renderHeaders := by
    rw [writeHead_of_valid rt _ statusCode statusMessage none hlo hhi]
    simp only [headersStep_of_isSome rt _ _ h1, Option.map_none', Option.getD_none]
    exact congrArg some (renderHeaders_congr _ _ rfl rfl)
  have hmem : ∀ name value,
      (name, value) ∈ (setHeaderEach rt w.message calls)._renderHeaders ↔
      name ≠ "__proto__" ∧
      JSObject.get (JSObject.setEach (fun c => rt.toLowerCase c.1) Prod.snd [] calls)
        (rt.toLowerCase name) = some value ∧
      JSObject.get (JSObject.setEach (fun c => rt.toLowerCase c.1) Prod.fst [] calls)
        (rt.toLowerCase name) = some name := by
    intro name value
    rw [JSObject.mem_iff_get_of_nodup _ (nodup_keys_renderHeaders _),
      get_renderHeaders rt _ hcons, hhs, hnames]
  have hsplit : ∀ name value,
      (name, value) ∈ (setHeaderEach rt w.message calls)._renderHeaders →
      ∃ pre post, calls = pre ++ (name, value) :: post ∧
        ∀ c ∈ post, rt.toLowerCase c.1 ≠ rt.toLowerCase name := by
    intro name value hm
    obtain ⟨_, hv, hn⟩ := (hmem name value).1 hm
    obtain ⟨hlow, pre, c, post, hl, _, hname, hpost⟩ :=
      JSObject.get_setEach_nil_eq_some _ _ _ _ _ hn
    have hname2 : c.1 = name := hname
    have hlast := JSObject.get_setEach_last (fun c : String × String => rt.toLowerCase c.1)
      Prod.snd [] pre c post
      (by
        show rt.toLowerCase c.1 ≠ "__proto__"
        rw [hname2]
        exact hlow)
      (by
        intro y hy
        show rt.toLowerCase y.1 ≠ rt.toLowerCase c.1
        rw [hname2]
        exact hpost y hy)
    simp only [hname2] at hlast
    rw [hl, hlast] at hv
    have hval : c.2 = value := Option.some.inj hv
    refine ⟨pre, post, ?_, hpost⟩
    rw [hl, ← hname2, ← hval]
  have hiff : ∀ name value, rt.toLowerCase name ≠ "__proto__" →
      ((name, value) ∈ (setHeaderEach rt w.message calls)._renderHeaders ↔
        ∃ pre post, calls = pre ++ (name, value) :: post ∧
          ∀ c ∈ post, rt.toLowerCase c.1 ≠ rt.toLowerCase name) := by
    intro name value hlow
    constructor
    · exact hsplit name value
    · rintro ⟨pre, post, hl, hpost⟩
      rw [hmem, hl]
      refine ⟨?_, ?_, ?_⟩
      · intro hname
        rw [hname] at hlow
        exact hlow rt.toLowerCase_proto
      · exact JSObject.get_setEach_last (fun c : String × String => rt.toLowerCase c.1)
          Prod.snd [] pre (name, value) post hlow hpost
      · exact JSObject.get_setEach_last (fun c : String × String => rt.toLowerCase c.1)
          Prod.fst [] pre (name, value) post hlow hpost
  refine ⟨_, hres, ?_, ?_, ?_, hiff⟩
  · apply List.Nodup.map_on
    · intro x hx y hy hxy
      have hx2 := ((hmem x.1 x.2).1 hx).2
      have hy2 := ((hmem y.1 y.2).1 hy).2
      rw [hxy] at hx2
      have e1 : x.1 = y.1 := Option.some.inj (hx2.2.symm.trans hy2.2)
      have e2 : x.2 = y.2 := Option.some.inj (hx2.1.symm.trans hy2.1)
      exact Prod.ext e1 e2
    · exact List.Nodup.of_map Prod.fst (nodup_keys_renderHeaders _)
  · intro c hc hlow
    obtain ⟨pre, x, post, hl, hx, hpost⟩ :=
      JSObject.exists_last_key (fun c : String × String => rt.toLowerCase c.1)
        (rt.toLowerCase c.1) calls ⟨c, hc, rfl⟩
    have hx2 : rt.toLowerCase x.1 = rt.toLowerCase c.1 := hx
    exact ⟨(x.1, x.2),
      (hiff x.1 x.2 (by rw [hx2]; exact hlow)).2 ⟨pre, post, hl, by rw [hx2]; exact hpost⟩,
      hx2⟩
  · intro e he
    obtain ⟨pre, post, hl, _⟩ := hsplit e.1 e.2 he
    rw [hl]
    simp

/-- Claim C7, amended, at `setHeader("Content-Type", "text/plain")` followed by
`writeHead(200)`. -/
theorem setHeader_calls_render_witness :
    ∃ rendered,
      (writeHead exampleRuntime
        { createOutgoingMessage emptyContext with
          message := setHeaderEach exampleRuntime (createOutgoingMessage emptyContext).message
            [("Content-Type", "text/plain")] }
        (.number 200) none none).world.context.res.headers = some rendered ∧
      ("Content-Type", "text/plain") ∈ rendered := by
  obtain ⟨rendered, h1, _, _, _, h3⟩ := setHeader_calls_render exampleRuntime
    (createOutgoingMessage emptyContext) [("Content-Type", "text/plain")] (.number 200) none
    (by decide) (by decide) (by decide) (by decide)
  exact ⟨rendered, h1, (h3 _ _ (by decide)).2 ⟨[], [], rfl, by simp⟩⟩

/-- Claim C8: for every valid status code, after `writeHead(code, msg, headers)` the adapter's
`statusMessage` is `msg` when `msg` is provided and not empty; otherwise it is the entry of the
status-phrase table for the coerced code when the table has one; otherwise it is the text
`unknown`. -/
theorem writeHead_statusMessage (rt : Runtime) (w : World) (statusCode : StatusCode)
    (statusMessage : Option String) (headers : Option (JSObject String))
    (hlo : 100 ≤ statusCode.orZero) (hhi : statusCode.orZero ≤ 999) :
    (∀ text, statusMessage = some text → text ≠ "" →
      (writeHead rt w statusCode statusMessage headers).world.message.statusMessage
        = some text) ∧
    (statusMessage = none ∨ statusMessage = some "" →
      ∀ phrase, rt.statusCodes statusCode.orZero = some phrase →
        (writeHead rt w statusCode statusMessage headers).world.message.statusMessage
          = some phrase) ∧
    (statusMessage = none ∨ statusMessage = some "" →
      rt.statusCodes statusCode.orZero = none →
        (writeHead rt w statusCode statusMessage headers).world.message.statusMessage
          = some "unknown") := by
  rw [writeHead_of_valid rt w statusCode statusMessage headers hlo hhi]
  simp only [headersStep_statusMessage]
  refine ⟨?_, ?_, ?_⟩
  · intro text hm ht
    simp [reasonPhrase, truthy?, hm, ht]
  · intro hm phrase hp
    have hne : phrase ≠ "" := fun h => rt.statusCodes_ne statusCode.orZero (h ▸ hp)
    rcases hm with hm | hm <;> simp [reasonPhrase, truthy?, hm, hp, hne]
  · intro hm hp
    rcases hm with hm | hm <;> simp [reasonPhrase, truthy?, hm, hp]

/-- Claim C8 at `writeHead(404)`, which the example table maps to `Not Found`, and at
`writeHead(599)`, which it does not map. -/
theorem writeHead_statusMessage_witness :
    (writeHead exampleRuntime (createOutgoingMessage emptyContext) (.number 404) none
      none).world.message.statusMessage = some "Not Found" ∧
    (writeHead exampleRuntime (createOutgoingMessage emptyContext) (.number 599) none
      none).world.message.statusMessage = some "unknown" :=
  ⟨(writeHead_statusMessage exampleRuntime (createOutgoingMessage emptyContext) (.number 404)
      none none (by decide) (by decide)).2.1 (Or.inl rfl) "Not Found" (by decide),
    (writeHead_statusMessage exampleRuntime (createOutgoingMessage emptyContext) (.number 599)
      none none (by decide) (by decide)).2.2 (Or.inl rfl) (by decide)⟩

/-- Claim C9 fails as stated: on an adapter with status code `200`, `end` of a buffer with the
encoding name `bogus` raises the `TypeError` of the decoding after its `writeHead` call has
written status `200`; `isRaw` is not set and the body is not written. -/
theorem end_unknown_encoding_raises :
    (end_ exampleRuntime (adapterWithStatus 200) (.buffer [104, 105]) (some "bogus")).thrown
      = some (.TypeError "Unknown encoding: bogus") ∧
    (end_ exampleRuntime (adapterWithStatus 200) (.buffer [104, 105])
      (some "bogus")).world.context.res.status = some 200 ∧
    (end_ exampleRuntime (adapterWithStatus 200) (.buffer [104, 105])
      (some "bogus")).world.context.res.isRaw = false ∧
    (end_ exampleRuntime (adapterWithStatus 200) (.buffer [104, 105])
      (some "bogus")).world.context.res.body = .undefined := by
  decide

/-- Claim C9, amended: for every adapter whose current `statusCode` is valid, `end(data,
encoding)` does not raise, sets the descriptor's `isRaw` to `true` and sets `body` to `data`
unchanged when `data` is text or absent; when `data` is a buffer that `toString` decodes under
`encoding`, it does not raise, sets `isRaw` to `true` and sets `body` to the decoded text. -/
theorem end_body_and_isRaw (rt : Runtime) (w : World) (encoding : Option String)
    (hlo : 100 ≤ w.message.statusCode.orZero) (hhi : w.message.statusCode.orZero ≤ 999) :
    (∀ s, (end_ rt w (.text s) encoding).thrown = none ∧
      (end_ rt w (.text s) encoding).world.context.res.isRaw = true ∧
      (end_ rt w (.text s) encoding).world.context.res.body = .text s) ∧
    ((end_ rt w .undefined encoding).thrown = none ∧
      (end_ rt w .undefined encoding).world.context.res.isRaw = true ∧
      (end_ rt w .undefined encoding).world.context.res.body = .undefined) ∧
    (∀ bytes text, rt.bufferToString bytes encoding = .ok text →
      (end_ rt w (.buffer bytes) encoding).thrown = none ∧
      (end_ rt w (.buffer bytes) encoding).world.context.res.isRaw = true ∧
      (end_ rt w (.buffer bytes) encoding).world.context.res.body = .text text) := by
  refine ⟨fun s => ?_, ?_, fun bytes text h => ?_⟩
  · rw [end_of_valid rt w _ encoding _ hlo hhi (convertToBody_text rt s encoding)]
    exact ⟨rfl, rfl, rfl⟩
  · rw [end_of_valid rt w _ encoding _ hlo hhi (convertToBody_undefined rt encoding)]
    exact ⟨rfl, rfl, rfl⟩
  · rw [end_of_valid rt w _ encoding _ hlo hhi (convertToBody_buffer rt bytes encoding text h)]
    exact ⟨rfl, rfl, rfl⟩

/-- Claim C9, amended, at `end(buffer, "utf8")` for the two bytes `104, 105` on an adapter with
status code `200`. -/
theorem end_body_and_isRaw_witness :
    (end_ exampleRuntime (adapterWithStatus 200) (.buffer [104, 105])
      (some "utf8")).world.context.res.body = .text "hi" :=
  ((end_body_and_isRaw exampleRuntime (adapterWithStatus 200) (some "utf8")
    (by decide) (by decide)).2.2 [104, 105] "hi" rfl).2.2

/-- Claim C10: whenever `writeHead` raises, and whenever `end` raises the range error of an
invalid status code, the whole state is exactly as before the call: the adapter's fields (status
message, header storage and name map), the descriptor's `status`, `headers`, `body` and `isRaw`,
and the count of completion signals; also when `writeHead` is given a headers object while
header storage is initialized. What `writeHead` raises is that range error. -/
theorem raise_leaves_state_unchanged (rt : Runtime) (w : World) (statusCode : StatusCode)
    (statusMessage : Option String) (headers : Option (JSObject String)) (data : Data)
    (encoding : Option String) :
    ((writeHead rt w statusCode statusMessage headers).thrown ≠ none →
      (writeHead rt w statusCode statusMessage headers).thrown
        = some (.RangeError ("Invalid status code: " ++ toString statusCode.orZero)) ∧
      (writeHead rt w statusCode statusMessage headers).world = w) ∧
    (∀ message, (end_ rt w data encoding).thrown = some (.RangeError message) →
      (end_ rt w data encoding).world = w) := by
  constructor
  · intro h
    by_cases hv : statusCode.orZero < 100 ∨ statusCode.orZero > 999
    · rw [writeHead_of_invalid rt w statusCode statusMessage headers hv]
      exact ⟨rfl, rfl⟩
    · rw [writeHead_of_valid rt w statusCode statusMessage headers (by omega) (by omega)] at h
      exact absurd rfl h
  · intro message h
    by_cases hv : w.message.statusCode.orZero < 100 ∨ w.message.statusCode.orZero > 999
    · rw [end_of_invalid rt w data encoding hv]
    · cases hb : convertToBody rt data encoding with
      | ok body =>
        rw [end_of_valid rt w data encoding body (by omega) (by omega) hb] at h
        exact Option.noConfusion h
      | error e =>
        rw [end_of_throw rt w data encoding e (by omega) (by omega) hb] at h
        have he : e = .RangeError message := Option.some.inj h
        rw [he] at hb
        exact absurd hb (convertToBody_ne_rangeError rt data encoding message)

/-- Claim C10 at `writeHead(1000, undefined, headers)` on an adapter in progressive use and at
`end("hello")` on a fresh adapter, both of which raise the range error. -/
theorem raise_leaves_state_unchanged_witness :
    (writeHead exampleRuntime progressiveAdapter (.number 1000) none
      (some [("X-B", "2")])).world = progressiveAdapter ∧
    (end_ exampleRuntime (createOutgoingMessage emptyContext) (.text "hello") none).world
      = createOutgoingMessage emptyContext :=
  ⟨((raise_leaves_state_unchanged exampleRuntime progressiveAdapter (.number 1000) none
      (some [("X-B", "2")]) .undefined none).1 (by decide)).2,
    (raise_leaves_state_unchanged exampleRuntime (createOutgoingMessage emptyContext)
      .undefined none none (.text "hello") none).2 "Invalid status code: 0" (by decide)⟩

end AzureFunctionExpress
